import Mathlib

/-!
Verification development for the lazy-susan publishing backend.

This file gives a shallow embedding of the blog service: the relational
state (blog posts, blog metadata, persisted feed rows), the Atom feed
renderer (`generate_atom_feed` in `blog_atom.rs`), and the mutation
handlers (`write_blog_post`, `edit_blog_post`, `delete_blog_post`,
`update_blog_rss`, `set_blog_updated` in `blog_service.rs`).

Database rows are Lean structures; the database is lists of rows.  Each
fallible database call has a failure-injection flag in `FailureSpec`, so
theorems can quantify over which underlying store operation errors.
Handlers additionally emit an event trace recording the order of the
sync-pipeline steps (mutation committed, feed rendered, feed row
persisted, cache swapped, metadata stamped), which is how the temporal
claims about the pipeline are stated.

Outside pure collaborators (markdown-to-HTML rendering, Atom XML
serialization, the configured base URL, the wall clock) are parameters of
the model, bundled in `Env`.
-/

namespace LazySusan

/-- Row of the blog_posts table (entity `blog_posts::Model`, columns from
the initial migration). Timestamps are modelled as integers. -/
structure BlogPost where
  id : Nat
  title : String
  slug : String
  blog_title : String
  author : String
  text : String
  description : String
  image : Option String
  tags : Option (List String)
  next : Option String
  previous : Option String
  date : Int
  last_updated : Int
  visible : Bool
  edited : Bool
deriving DecidableEq, Repr

/-- Row of the blog_metadata table. -/
structure BlogMetadata where
  id : Nat
  title : String
  blog_url : String
  syndication_url : String
  last_updated : Int
  author : String
  author_email : Option String
  author_url : Option String
deriving DecidableEq, Repr

/-- The content_type database enum. -/
inductive ContentType where
  | Blog
  | Podcast
deriving DecidableEq, Repr, BEq

/-- Row of the rss_feeds table (the persisted serialized feed). -/
structure RssFeedRecord where
  id : Nat
  content_type : ContentType
  rss_xml_string : String
  last_updated : Int
deriving DecidableEq, Repr

/-- The relational store: posts, metadata, persisted feeds. -/
structure Database where
  blog_posts : List BlogPost
  blog_metadata : List BlogMetadata
  rss_feeds : List RssFeedRecord
deriving DecidableEq, Repr

/-- Atom `Person` construct. -/
structure Person where
  name : String
  email : Option String
  uri : Option String
deriving DecidableEq, Repr

/-- Atom `Link` construct. -/
structure AtomLink where
  href : String
  rel : String
  hreflang : Option String
  mime_type : Option String
  title : Option String
  length : Option Nat
deriving DecidableEq, Repr

/-- Atom entry `Content` construct. -/
structure EntryContent where
  content_type : Option String
  value : Option String
deriving DecidableEq, Repr

/-- Atom feed entry, with the fields `impl From<BlogPost> for Entry` sets. -/
structure Entry where
  title : String
  id : String
  updated : Int
  authors : List Person
  categories : List String
  contributors : List Person
  links : List AtomLink
  published : Option Int
  rights : Option String
  source : Option String
  summary : Option String
  content : Option EntryContent
deriving DecidableEq, Repr

/-- Atom feed document, with the fields `generate_atom_feed` builds. -/
structure Feed where
  authors : List Person
  lang : Option String
  links : List AtomLink
  updated : Int
  entries : List Entry
deriving DecidableEq, Repr

/-- Default feed (`Feed::default()`), the cold-start cache value. -/
def emptyFeed : Feed :=
  { authors := [], lang := none, links := [], updated := 0, entries := [] }

/-- Outside collaborators and process configuration: the markdown-to-HTML
transform, the Atom XML serializer, the configured base URL, the value the
store gives `last_updated` on insert, and the wall clock. -/
structure Env where
  md : String → String
  feedStr : Feed → String
  baseUrl : String
  storeDefault : Int
  now : Int

/-- Failure injection: one flag per fallible database call in the
handlers; a true flag makes that call report a store error. -/
structure FailureSpec where
  dupQuery : Bool
  insert : Bool
  getFeedMeta : Bool
  getFeedPosts : Bool
  rssSelect : Bool
  rssUpdate : Bool
  metaSelect : Bool
  metaUpdate : Bool
  editFind : Bool
  editUpdate : Bool
  delFind : Bool
  delUpdate : Bool
deriving DecidableEq, Repr

/-- All database calls succeed. -/
def noFailures : FailureSpec :=
  ⟨false, false, false, false, false, false, false, false, false, false, false, false⟩

/-- Observable steps of a mutation's sync pipeline, in the order the
handler performs them. -/
inductive Event where
  | postMutated
  | feedRendered
  | rssPersisted
  | cacheSwapped
  | metaStamped
deriving DecidableEq, Repr

/-- Events of a trace strictly before the first occurrence of `e`. -/
def eventsBefore (e : Event) (tr : List Event) : List Event :=
  tr.takeWhile (fun x => decide (x ≠ e))

/-- HTTP response: status code, body text, optional Location header. -/
structure HttpResponse where
  status : Nat
  body : String
  location : Option String
deriving DecidableEq, Repr

/-- Result of running a mutating handler: the response, the final store
and cache, the pipeline event trace, and the row the store handed back to
the handler (exposed for the soft-delete idempotence claim). -/
structure HandlerResult where
  response : HttpResponse
  db : Database
  cache : Feed
  trace : List Event
  returnedPost : Option BlogPost
deriving DecidableEq, Repr

/-- Result of `update_blog_rss`: `err = some r` means the pipeline step
failed with response `r`. -/
structure RssUpdateResult where
  err : Option HttpResponse
  db : Database
  cache : Feed
  trace : List Event
deriving DecidableEq, Repr

/-- Result of `set_blog_updated`. -/
structure MetaUpdateResult where
  err : Option HttpResponse
  db : Database
  trace : List Event
deriving DecidableEq, Repr

/-- Descending publish-date order on posts (`order_by_desc(Date)`). -/
def dateGe (a b : BlogPost) : Prop := b.date ≤ a.date

instance : DecidableRel dateGe := fun a b => Int.decLe b.date a.date

instance : IsTotal BlogPost dateGe :=
  ⟨fun a b => (Int.le_total b.date a.date).imp (fun h => h) (fun h => h)⟩

instance : IsTrans BlogPost dateGe :=
  ⟨fun _ _ _ hab hbc => le_trans hbc hab⟩

/-- The post list as the store returns it under `order_by_desc(Date)`. -/
def sortByDateDesc (l : List BlogPost) : List BlogPost :=
  l.insertionSort dateGe

/-- Publish date of an entry (`published` is always set by the code). -/
def entryPubDate (e : Entry) : Int := e.published.getD 0

/-- Descending publish-date order on feed entries. -/
def entryGe (a b : Entry) : Prop := entryPubDate b ≤ entryPubDate a

/-- Translation of `impl From<BlogPost> for Entry` (blog_atom.rs): the
entry id and link are the base URL concatenated with the slug, and the
content is the HTML rendering of the post's markdown source. -/
def entryFrom (md : String → String) (baseUrl : String) (p : BlogPost) : Entry :=
  let post_url := baseUrl ++ p.slug
  { title := p.title
    id := post_url
    updated := p.last_updated
    authors := [{ name := p.author, email := none, uri := none }]
    categories := []
    contributors := []
    links := [{ href := post_url, rel := "", hreflang := none,
                mime_type := none, title := none, length := none }]
    published := some p.date
    rights := none
    source := none
    summary := none
    content := some { content_type := some "text/html", value := some (md p.text) } }

/-- Self link of the feed, built from the metadata row. -/
def selfLinkOf (meta : BlogMetadata) : AtomLink :=
  { href := meta.syndication_url, rel := "self", hreflang := some "English",
    mime_type := some "application/atom+xml", title := none, length := none }

/-- The feed `generate_atom_feed` builds from a metadata row and the post
table: visible posts in descending publish-date order, mapped to entries,
with the feed-level updated stamp set to the wall clock. -/
def atomFeedOf (env : Env) (meta : BlogMetadata) (posts : List BlogPost) : Feed :=
  { authors := [{ name := meta.author, email := meta.author_email, uri := meta.author_url }]
    lang := some "English"
    links := [selfLinkOf meta]
    updated := env.now
    entries := ((sortByDateDesc posts).filter (fun p => p.visible)).map
      (entryFrom env.md env.baseUrl) }

/-- Translation of `generate_atom_feed` (blog_atom.rs): queries the single
metadata row (error when absent), queries all posts ordered by date
descending, keeps the visible ones, and builds the feed. -/
def generate_atom_feed (env : Env) (fs : FailureSpec) (db : Database) :
    Except String Feed :=
  if fs.getFeedMeta then .error "Database error" else
  match db.blog_metadata.head? with
  | none => .error "Blog metadata not in database."
  | some meta =>
    if fs.getFeedPosts then .error "Database error" else
    .ok (atomFeedOf env meta db.blog_posts)

/-- Store lookup by slug (`find().filter(Slug.eq(slug)).one()`), used both
for duplicate detection and for the read paths: no visibility filter. -/
def findPost (db : Database) (slug : String) : Option BlogPost :=
  db.blog_posts.find? (fun p => p.slug == slug)

/-- Row update keyed by the primary key, as `ActiveModel::update` writes
the row with the matching id. -/
def updateRow (l : List BlogPost) (p' : BlogPost) : List BlogPost :=
  l.map (fun q => if q.id == p'.id then p' else q)

/-- Fresh identifier for an inserted row. -/
def freshId (l : List BlogPost) : Nat := (l.map (fun p => p.id)).foldr max 0 + 1

/-- Modelled from the spec: the entity module `src/entity` (the generated
`blog_posts` ActiveModel and its insert behaviour) is not among the
repository sources; per the spec, creation assigns the identifier and the
edited flag and last-modified timestamp are not client-controlled — the
store assigns the id, sets edited to false and gives last_updated its
store default. -/
def insertPost (storeDefault : Int) (l : List BlogPost) (c : BlogPost) : BlogPost :=
  { c with id := freshId l, edited := false, last_updated := storeDefault }

/-- Body of a PUT /api/posts/slug request: only present fields change. -/
structure EditRequest where
  title : Option String
  text : Option String
  tags : Option (List String)
  visible : Option Bool
deriving DecidableEq, Repr

/-- Translation of the field updates in `edit_blog_post`: supplied fields
are written, the edited flag is always set, and last_updated is always
refreshed to the wall clock. -/
def applyEdits (env : Env) (e : EditRequest) (p : BlogPost) : BlogPost :=
  { p with
    title := e.title.getD p.title
    text := e.text.getD p.text
    tags := if e.tags.isSome then e.tags else p.tags
    visible := e.visible.getD p.visible
    edited := true
    last_updated := env.now }

/-- Translation of `update_blog_rss` (blog_service.rs): render the feed,
look up the persisted Blog feed row (500 when absent — this step never
inserts), write the new serialized feed and timestamp into it, and only
then swap the in-memory cache. Every failure leaves store and cache
unchanged. -/
def update_blog_rss (env : Env) (fs : FailureSpec) (db : Database) (cache : Feed) :
    RssUpdateResult :=
  match generate_atom_feed env fs db with
  | .error _ => ⟨some ⟨500, "Error generating Atom feed", none⟩, db, cache, []⟩
  | .ok new_feed =>
    if fs.rssSelect then
      ⟨some ⟨500, "Database error", none⟩, db, cache, [Event.feedRendered]⟩
    else
      match db.rss_feeds.find? (fun x => x.content_type == ContentType.Blog) with
      | none =>
        ⟨some ⟨500, "Blog Atom XML not found", none⟩, db, cache, [Event.feedRendered]⟩
      | some row =>
        if fs.rssUpdate then
          ⟨some ⟨500, "Database error", none⟩, db, cache, [Event.feedRendered]⟩
        else
          ⟨none,
           { db with rss_feeds := db.rss_feeds.map (fun x =>
               if x.id == row.id then
                 { row with last_updated := env.now,
                            rss_xml_string := env.feedStr new_feed }
               else x) },
           new_feed,
           [Event.feedRendered, Event.rssPersisted, Event.cacheSwapped]⟩

/-- Translation of `set_blog_updated`: find the metadata row by blog title
(500 when absent) and refresh its last_updated stamp. -/
def set_blog_updated (env : Env) (fs : FailureSpec) (db : Database)
    (blog_title : String) : MetaUpdateResult :=
  if fs.metaSelect then ⟨some ⟨500, "Database error", none⟩, db, []⟩ else
  match db.blog_metadata.find? (fun m => m.title == blog_title) with
  | none => ⟨some ⟨500, "Server error: Blog metadata not configured", none⟩, db, []⟩
  | some meta =>
    if fs.metaUpdate then ⟨some ⟨500, "Database error", none⟩, db, []⟩ else
    ⟨none,
     { db with blog_metadata := db.blog_metadata.map (fun m =>
         if m.id == meta.id then { meta with last_updated := env.now } else m) },
     [Event.metaStamped]⟩

/-- Shared tail of the three mutating handlers (the Rust code repeats it
verbatim): after the store mutation produced `db₁` and returned `row`,
run `update_blog_rss`, returning its response on failure, then
`set_blog_updated`, returning its response on failure, else the success
response. -/
def mutationTail (env : Env) (fs : FailureSpec) (db₁ : Database) (cache : Feed)
    (row : BlogPost) (resp : HttpResponse) : HandlerResult :=
  let u := update_blog_rss env fs db₁ cache
  match u.err with
  | some r => ⟨r, u.db, u.cache, Event.postMutated :: u.trace, some row⟩
  | none =>
    let s := set_blog_updated env fs u.db row.blog_title
    match s.err with
    | some r => ⟨r, s.db, u.cache, Event.postMutated :: (u.trace ++ s.trace), some row⟩
    | none => ⟨resp, s.db, u.cache, Event.postMutated :: (u.trace ++ s.trace), some row⟩

/-- Translation of `write_blog_post`: authenticate, check for a duplicate
slug against the full post table (409 when found), insert, then run the
sync pipeline; 201 with a Location header on full success. -/
def write_blog_post (env : Env) (fs : FailureSpec) (authOk : Bool) (c : BlogPost)
    (db : Database) (cache : Feed) : HandlerResult :=
  if !authOk then
    ⟨⟨401, "Unauthorized: Requires API key", none⟩, db, cache, [], none⟩
  else if fs.dupQuery then
    ⟨⟨500, "Database error", none⟩, db, cache, [], none⟩
  else
    match findPost db c.slug with
    | some _ => ⟨⟨409, "Error: Duplicate slug/post title", none⟩, db, cache, [], none⟩
    | none =>
      if fs.insert then ⟨⟨500, "Database error", none⟩, db, cache, [], none⟩ else
      let row := insertPost env.storeDefault db.blog_posts c
      mutationTail env fs { db with blog_posts := db.blog_posts ++ [row] } cache row
        ⟨201, "Post successfully entered", some (env.baseUrl ++ row.slug)⟩

/-- Translation of `edit_blog_post`: authenticate, find the post by slug
(404 when absent, any visibility), apply the supplied fields plus the
edited flag and the refreshed last_updated stamp, write the row, then run
the sync pipeline; 200 on full success. -/
def edit_blog_post (env : Env) (fs : FailureSpec) (authOk : Bool) (slug : String)
    (e : EditRequest) (db : Database) (cache : Feed) : HandlerResult :=
  if !authOk then
    ⟨⟨401, "Unauthorized: Requires API key", none⟩, db, cache, [], none⟩
  else if fs.editFind then
    ⟨⟨500, "Database error", none⟩, db, cache, [], none⟩
  else
    match findPost db slug with
    | none => ⟨⟨404, "Not Found", none⟩, db, cache, [], none⟩
    | some p =>
      let p' := applyEdits env e p
      if fs.editUpdate then ⟨⟨500, "Database error", none⟩, db, cache, [], none⟩ else
      mutationTail env fs { db with blog_posts := updateRow db.blog_posts p' } cache p'
        ⟨200, "Post successfully edited: " ++ p'.slug, none⟩

/-- Translation of `delete_blog_post`: authenticate, find the post by slug
(404 when absent), set the visibility flag to false leaving every other
column untouched, write the row, then run the sync pipeline. -/
def delete_blog_post (env : Env) (fs : FailureSpec) (authOk : Bool) (slug : String)
    (db : Database) (cache : Feed) : HandlerResult :=
  if !authOk then
    ⟨⟨401, "Unauthorized: Requires API key", none⟩, db, cache, [], none⟩
  else if fs.delFind then
    ⟨⟨500, "Database error", none⟩, db, cache, [], none⟩
  else
    match findPost db slug with
    | none => ⟨⟨404, "Not Found", none⟩, db, cache, [], none⟩
    | some p =>
      let p' := { p with visible := false }
      if fs.delUpdate then ⟨⟨500, "Database error", none⟩, db, cache, [], none⟩ else
      mutationTail env fs { db with blog_posts := updateRow db.blog_posts p' } cache p'
        ⟨200, "Post successfully deleted: " ++ slug, none⟩

/-- The three mutating operations, as routed by `handle_request`. -/
inductive Mutation where
  | create (c : BlogPost)
  | edit (slug : String) (e : EditRequest)
  | softDelete (slug : String)
deriving DecidableEq, Repr

/-- Dispatch of a mutating request to its handler. -/
def runMutation (env : Env) (fs : FailureSpec) (authOk : Bool) (m : Mutation)
    (db : Database) (cache : Feed) : HandlerResult :=
  match m with
  | .create c => write_blog_post env fs authOk c db cache
  | .edit slug e => edit_blog_post env fs authOk slug e db cache
  | .softDelete slug => delete_blog_post env fs authOk slug db cache

/-- Just the store mutation of an operation, stripped of the pipeline:
what the post table holds once the mutation has committed, with the row
the store returns. `none` when the operation reports 409 or 404. -/
def applyMutationOnly (env : Env) (m : Mutation) (db : Database) :
    Option (Database × BlogPost) :=
  match m with
  | .create c =>
    match findPost db c.slug with
    | some _ => none
    | none =>
      let row := insertPost env.storeDefault db.blog_posts c
      some ({ db with blog_posts := db.blog_posts ++ [row] }, row)
  | .edit slug e =>
    (findPost db slug).map (fun p =>
      let p' := applyEdits env e p
      ({ db with blog_posts := updateRow db.blog_posts p' }, p'))
  | .softDelete slug =>
    (findPost db slug).map (fun p =>
      let p' := { p with visible := false }
      ({ db with blog_posts := updateRow db.blog_posts p' }, p'))

/-- Flags of the store calls that run before the sync pipeline of a given
mutation. -/
def preFlagsOk (fs : FailureSpec) : Mutation → Bool
  | .create _ => !fs.dupQuery && !fs.insert
  | .edit _ _ => !fs.editFind && !fs.editUpdate
  | .softDelete _ => !fs.delFind && !fs.delUpdate

/-- The success response of each mutating handler. -/
def successRespFor (env : Env) (m : Mutation) (row : BlogPost) : HttpResponse :=
  match m with
  | .create _ => ⟨201, "Post successfully entered", some (env.baseUrl ++ row.slug)⟩
  | .edit _ _ => ⟨200, "Post successfully edited: " ++ row.slug, none⟩
  | .softDelete slug => ⟨200, "Post successfully deleted: " ++ slug, none⟩

/-- Result of the public single-post read. -/
structure GetPostResult where
  status : Nat
  post : Option BlogPost
deriving DecidableEq, Repr

/-- Translation of `get_blog_post`: the row found by slug is returned,
with its markdown rendered to HTML, only when its visibility flag is
true; a hidden or absent row is 404. -/
def get_blog_post (md : String → String) (db : Database) (slug : String) :
    GetPostResult :=
  match findPost db slug with
  | some p => if p.visible then ⟨200, some { p with text := md p.text }⟩ else ⟨404, none⟩
  | none => ⟨404, none⟩

/-- Summary row of the list endpoint (`BlogPostInfo`). -/
structure BlogPostInfo where
  title : String
  slug : String
  date : Int
  visible : Bool
deriving DecidableEq, Repr

/-- Translation of `get_blog_posts`: every post, visible or hidden, in
descending publish-date order. -/
def get_blog_posts (db : Database) : List BlogPostInfo :=
  (sortByDateDesc db.blog_posts).map (fun p => ⟨p.title, p.slug, p.date, p.visible⟩)

/-- Translation of `get_blog_rss`: serves the serialized cache snapshot. -/
def get_blog_rss (env : Env) (cache : Feed) : HttpResponse :=
  ⟨200, env.feedStr cache, none⟩



/-- Successful feed generation implies both feed-query flags were clear
and the feed is the pure render of the head metadata row and the posts. -/
theorem generate_atom_feed_ok {env : Env} {fs : FailureSpec} {db : Database} {feed : Feed}
    (h : generate_atom_feed env fs db = Except.ok feed) :
    fs.getFeedMeta = false ∧ fs.getFeedPosts = false ∧
    ∃ meta, db.blog_metadata.head? = some meta ∧
      feed = atomFeedOf env meta db.blog_posts := by
  unfold generate_atom_feed at h
  cases h₁ : fs.getFeedMeta with
  | true => rw [h₁] at h; simp at h
  | false =>
    rw [h₁] at h
    simp only [Bool.false_eq_true, if_false] at h
    cases hm : db.blog_metadata.head? with
    | none => rw [hm] at h; simp at h
    | some meta =>
      rw [hm] at h
      cases h₂ : fs.getFeedPosts with
      | true => rw [h₂] at h; simp at h
      | false =>
        rw [h₂] at h
        simp only [Bool.false_eq_true, if_false, Except.ok.injEq] at h
        exact ⟨rfl, rfl, meta, rfl, h.symm⟩

/-- Case analysis of `update_blog_rss`: either it fails with a 500 leaving
store and cache untouched (trace at most the render event), or every step
succeeded, the Blog feed row was rewritten, and the cache was swapped. -/
theorem update_blog_rss_cases (env : Env) (fs : FailureSpec) (db : Database) (cache : Feed) :
    (∃ r tr, update_blog_rss env fs db cache = ⟨some r, db, cache, tr⟩ ∧
       r.status = 500 ∧ (tr = [] ∨ tr = [Event.feedRendered])) ∨
    (∃ feed rrow,
       generate_atom_feed env fs db = Except.ok feed ∧
       db.rss_feeds.find? (fun x => x.content_type == ContentType.Blog) = some rrow ∧
       fs.rssSelect = false ∧ fs.rssUpdate = false ∧
       update_blog_rss env fs db cache =
         ⟨none,
          { db with rss_feeds := db.rss_feeds.map (fun x =>
              if x.id == rrow.id then
                { rrow with last_updated := env.now, rss_xml_string := env.feedStr feed }
              else x) },
          feed, [Event.feedRendered, Event.rssPersisted, Event.cacheSwapped]⟩) := by
  cases hg : generate_atom_feed env fs db with
  | error e =>
    left
    exact ⟨⟨500, "Error generating Atom feed", none⟩, [],
      by simp [update_blog_rss, hg], rfl, Or.inl rfl⟩
  | ok feed =>
    cases h₁ : fs.rssSelect with
    | true =>
      left
      exact ⟨⟨500, "Database error", none⟩, [Event.feedRendered],
        by simp [update_blog_rss, hg, h₁], rfl, Or.inr rfl⟩
    | false =>
      cases hf : db.rss_feeds.find? (fun x => x.content_type == ContentType.Blog) with
      | none =>
        left
        exact ⟨⟨500, "Blog Atom XML not found", none⟩, [Event.feedRendered],
          by simp [update_blog_rss, hg, h₁, hf], rfl, Or.inr rfl⟩
      | some rrow =>
        cases h₂ : fs.rssUpdate with
        | true =>
          left
          exact ⟨⟨500, "Database error", none⟩, [Event.feedRendered],
            by simp [update_blog_rss, hg, h₁, hf, h₂], rfl, Or.inr rfl⟩
        | false =>
          right
          exact ⟨feed, rrow, rfl, rfl, rfl, rfl,
            by simp [update_blog_rss, hg, h₁, hf, h₂]⟩

/-- Case analysis of `set_blog_updated`: failure leaves the store
untouched; success rewrites the matching metadata row's stamp. -/
theorem set_blog_updated_cases (env : Env) (fs : FailureSpec) (db : Database) (t : String) :
    (∃ r, set_blog_updated env fs db t = ⟨some r, db, []⟩ ∧ r.status = 500) ∨
    (∃ meta, db.blog_metadata.find? (fun m => m.title == t) = some meta ∧
       fs.metaSelect = false ∧ fs.metaUpdate = false ∧
       set_blog_updated env fs db t =
         ⟨none,
          { db with blog_metadata := db.blog_metadata.map (fun m =>
              if m.id == meta.id then { meta with last_updated := env.now } else m) },
          [Event.metaStamped]⟩) := by
  cases h₁ : fs.metaSelect with
  | true =>
    left
    exact ⟨⟨500, "Database error", none⟩, by simp [set_blog_updated, h₁], rfl⟩
  | false =>
    cases hf : db.blog_metadata.find? (fun m => m.title == t) with
    | none =>
      left
      exact ⟨⟨500, "Server error: Blog metadata not configured", none⟩,
        by simp [set_blog_updated, h₁, hf], rfl⟩
    | some meta =>
      cases h₂ : fs.metaUpdate with
      | true =>
        left
        exact ⟨⟨500, "Database error", none⟩, by simp [set_blog_updated, h₁, hf, h₂], rfl⟩
      | false =>
        right
        exact ⟨meta, rfl, rfl, rfl, by simp [set_blog_updated, h₁, hf, h₂]⟩


/-- Case analysis of the shared handler tail: either the pipeline failed
before persisting the feed row (store and cache exactly as the mutation
left them), or the feed row was persisted and the cache swapped but the
metadata stamp failed, or everything succeeded. -/
theorem mutationTail_cases (env : Env) (fs : FailureSpec) (db₁ : Database)
    (cache : Feed) (row : BlogPost) (resp : HttpResponse) :
    (∃ r tr, mutationTail env fs db₁ cache row resp =
       ⟨r, db₁, cache, Event.postMutated :: tr, some row⟩ ∧
       r.status = 500 ∧ (tr = [] ∨ tr = [Event.feedRendered])) ∨
    (∃ r feed db₂,
       generate_atom_feed env fs db₁ = Except.ok feed ∧
       fs.rssUpdate = false ∧
       mutationTail env fs db₁ cache row resp =
         ⟨r, db₂, feed,
          [Event.postMutated, Event.feedRendered, Event.rssPersisted, Event.cacheSwapped],
          some row⟩ ∧
       r.status = 500 ∧ db₂.blog_posts = db₁.blog_posts ∧
       db₂.blog_metadata = db₁.blog_metadata) ∨
    (∃ feed db₃,
       generate_atom_feed env fs db₁ = Except.ok feed ∧
       fs.rssUpdate = false ∧
       mutationTail env fs db₁ cache row resp =
         ⟨resp, db₃, feed,
          [Event.postMutated, Event.feedRendered, Event.rssPersisted,
           Event.cacheSwapped, Event.metaStamped],
          some row⟩ ∧
       db₃.blog_posts = db₁.blog_posts) := by
  rcases update_blog_rss_cases env fs db₁ cache with
    ⟨r, tr, hu, hs, htr⟩ | ⟨feed, rrow, hg, hf, h₁, h₂, hu⟩
  · left
    exact ⟨r, tr, by simp [mutationTail, hu], hs, htr⟩
  · rcases set_blog_updated_cases env fs
      { db₁ with rss_feeds := db₁.rss_feeds.map (fun x =>
          if x.id == rrow.id then
            { rrow with last_updated := env.now, rss_xml_string := env.feedStr feed }
          else x) } row.blog_title with
      ⟨r, hsu, hs⟩ | ⟨meta, hfm, h₃, h₄, hsu⟩
    · right; left
      refine ⟨r, feed,
        { db₁ with rss_feeds := db₁.rss_feeds.map (fun x =>
            if x.id == rrow.id then
              { rrow with last_updated := env.now, rss_xml_string := env.feedStr feed }
            else x) },
        hg, h₂, ?_, hs, rfl, rfl⟩
      simp only [mutationTail, hu, hsu, List.append_nil]
    · right; right
      refine ⟨feed,
        { db₁ with
            rss_feeds := db₁.rss_feeds.map (fun x =>
              if x.id == rrow.id then
                { rrow with last_updated := env.now, rss_xml_string := env.feedStr feed }
              else x),
            blog_metadata := db₁.blog_metadata.map (fun m =>
              if m.id == meta.id then { meta with last_updated := env.now } else m) },
        hg, h₂, ?_, rfl⟩
      simp only [mutationTail, hu, hsu]
      rfl

/-- When the store mutation itself succeeds and its own store calls are
not failure-injected, an authorized handler run is exactly the committed
mutation followed by the shared sync-pipeline tail. -/
theorem runMutation_commit (env : Env) (fs : FailureSpec) (m : Mutation)
    (db : Database) (cache : Feed) {db₁ : Database} {row : BlogPost}
    (hpre : preFlagsOk fs m = true)
    (hm : applyMutationOnly env m db = some (db₁, row)) :
    runMutation env fs true m db cache =
      mutationTail env fs db₁ cache row (successRespFor env m row) := by
  cases m with
  | create c =>
    simp only [preFlagsOk, Bool.and_eq_true, Bool.not_eq_true'] at hpre
    obtain ⟨h₁, h₂⟩ := hpre
    simp only [applyMutationOnly] at hm
    cases hf : findPost db c.slug with
    | some p => rw [hf] at hm; simp at hm
    | none =>
      rw [hf] at hm
      simp only [Option.some.injEq, Prod.mk.injEq] at hm
      obtain ⟨hdb, hrow⟩ := hm
      subst hdb; subst hrow
      simp [runMutation, write_blog_post, h₁, h₂, hf, successRespFor]
  | edit slug e =>
    simp only [preFlagsOk, Bool.and_eq_true, Bool.not_eq_true'] at hpre
    obtain ⟨h₁, h₂⟩ := hpre
    simp only [applyMutationOnly] at hm
    cases hf : findPost db slug with
    | none => rw [hf] at hm; simp at hm
    | some p =>
      rw [hf] at hm
      simp only [Option.map_some', Option.some.injEq, Prod.mk.injEq] at hm
      obtain ⟨hdb, hrow⟩ := hm
      subst hdb; subst hrow
      simp [runMutation, edit_blog_post, h₁, h₂, hf, successRespFor]
  | softDelete slug =>
    simp only [preFlagsOk, Bool.and_eq_true, Bool.not_eq_true'] at hpre
    obtain ⟨h₁, h₂⟩ := hpre
    simp only [applyMutationOnly] at hm
    cases hf : findPost db slug with
    | none => rw [hf] at hm; simp at hm
    | some p =>
      rw [hf] at hm
      simp only [Option.map_some', Option.some.injEq, Prod.mk.injEq] at hm
      obtain ⟨hdb, hrow⟩ := hm
      subst hdb; subst hrow
      simp [runMutation, delete_blog_post, h₁, h₂, hf, successRespFor]

/-- Every handler run either fails before touching the store (unchanged
state, empty trace, an error status) or commits the mutation and runs the
shared pipeline tail. -/
theorem runMutation_cases (env : Env) (fs : FailureSpec) (authOk : Bool)
    (m : Mutation) (db : Database) (cache : Feed) :
    (∃ resp, runMutation env fs authOk m db cache = ⟨resp, db, cache, [], none⟩ ∧
       (resp.status = 401 ∨ resp.status = 500 ∨ resp.status = 409 ∨ resp.status = 404)) ∨
    (∃ db₁ row, applyMutationOnly env m db = some (db₁, row) ∧
       runMutation env fs authOk m db cache =
         mutationTail env fs db₁ cache row (successRespFor env m row)) := by
  cases authOk with
  | false =>
    left
    cases m with
    | create c =>
      exact ⟨⟨401, "Unauthorized: Requires API key", none⟩,
        by simp [runMutation, write_blog_post], Or.inl rfl⟩
    | edit slug e =>
      exact ⟨⟨401, "Unauthorized: Requires API key", none⟩,
        by simp [runMutation, edit_blog_post], Or.inl rfl⟩
    | softDelete slug =>
      exact ⟨⟨401, "Unauthorized: Requires API key", none⟩,
        by simp [runMutation, delete_blog_post], Or.inl rfl⟩
  | true =>
    cases m with
    | create c =>
      cases h₁ : fs.dupQuery with
      | true =>
        left
        exact ⟨⟨500, "Database error", none⟩,
          by simp [runMutation, write_blog_post, h₁], Or.inr (Or.inl rfl)⟩
      | false =>
        cases hf : findPost db c.slug with
        | some p =>
          left
          exact ⟨⟨409, "Error: Duplicate slug/post title", none⟩,
            by simp [runMutation, write_blog_post, h₁, hf],
            Or.inr (Or.inr (Or.inl rfl))⟩
        | none =>
          cases h₂ : fs.insert with
          | true =>
            left
            exact ⟨⟨500, "Database error", none⟩,
              by simp [runMutation, write_blog_post, h₁, h₂, hf],
              Or.inr (Or.inl rfl)⟩
          | false =>
            right
            refine ⟨{ db with blog_posts :=
                db.blog_posts ++ [insertPost env.storeDefault db.blog_posts c] },
              insertPost env.storeDefault db.blog_posts c, ?_, ?_⟩
            · simp [applyMutationOnly, hf]
            · simp [runMutation, write_blog_post, h₁, h₂, hf, successRespFor]
    | edit slug e =>
      cases h₁ : fs.editFind with
      | true =>
        left
        exact ⟨⟨500, "Database error", none⟩,
          by simp [runMutation, edit_blog_post, h₁], Or.inr (Or.inl rfl)⟩
      | false =>
        cases hf : findPost db slug with
        | none =>
          left
          exact ⟨⟨404, "Not Found", none⟩,
            by simp [runMutation, edit_blog_post, h₁, hf],
            Or.inr (Or.inr (Or.inr rfl))⟩
        | some p =>
          cases h₂ : fs.editUpdate with
          | true =>
            left
            exact ⟨⟨500, "Database error", none⟩,
              by simp [runMutation, edit_blog_post, h₁, h₂, hf],
              Or.inr (Or.inl rfl)⟩
          | false =>
            right
            refine ⟨{ db with blog_posts := updateRow db.blog_posts (applyEdits env e p) },
              applyEdits env e p, ?_, ?_⟩
            · simp [applyMutationOnly, hf]
            · simp [runMutation, edit_blog_post, h₁, h₂, hf, successRespFor]
    | softDelete slug =>
      cases h₁ : fs.delFind with
      | true =>
        left
        exact ⟨⟨500, "Database error", none⟩,
          by simp [runMutation, delete_blog_post, h₁], Or.inr (Or.inl rfl)⟩
      | false =>
        cases hf : findPost db slug with
        | none =>
          left
          exact ⟨⟨404, "Not Found", none⟩,
            by simp [runMutation, delete_blog_post, h₁, hf],
            Or.inr (Or.inr (Or.inr rfl))⟩
        | some p =>
          cases h₂ : fs.delUpdate with
          | true =>
            left
            exact ⟨⟨500, "Database error", none⟩,
              by simp [runMutation, delete_blog_post, h₁, h₂, hf],
              Or.inr (Or.inl rfl)⟩
          | false =>
            right
            refine ⟨{ db with blog_posts := updateRow db.blog_posts { p with visible := false } },
              { p with visible := false }, ?_, ?_⟩
            · simp [applyMutationOnly, hf]
            · simp [runMutation, delete_blog_post, h₁, h₂, hf, successRespFor]

/-- The five possible event-trace shapes of a handler run, each a strict
step-order sequence of the pipeline. -/
theorem runMutation_trace_shapes (env : Env) (fs : FailureSpec) (authOk : Bool)
    (m : Mutation) (db : Database) (cache : Feed) :
    (runMutation env fs authOk m db cache).trace = [] ∨
    (runMutation env fs authOk m db cache).trace = [Event.postMutated] ∨
    (runMutation env fs authOk m db cache).trace =
      [Event.postMutated, Event.feedRendered] ∨
    (runMutation env fs authOk m db cache).trace =
      [Event.postMutated, Event.feedRendered, Event.rssPersisted, Event.cacheSwapped] ∨
    (runMutation env fs authOk m db cache).trace =
      [Event.postMutated, Event.feedRendered, Event.rssPersisted,
       Event.cacheSwapped, Event.metaStamped] := by
  rcases runMutation_cases env fs authOk m db cache with
    ⟨resp, he, _⟩ | ⟨db₁, row, _, he⟩
  · rw [he]; exact Or.inl rfl
  · rw [he]
    rcases mutationTail_cases env fs db₁ cache row (successRespFor env m row) with
      ⟨r, tr, ht, _, htr | htr⟩ | ⟨r, feed, db₂, _, _, ht, _⟩ | ⟨feed, db₃, _, _, ht, _⟩
    · rw [ht, htr]; exact Or.inr (Or.inl rfl)
    · rw [ht, htr]; exact Or.inr (Or.inr (Or.inl rfl))
    · rw [ht]; exact Or.inr (Or.inr (Or.inr (Or.inl rfl)))
    · rw [ht]; exact Or.inr (Or.inr (Or.inr (Or.inr rfl)))


/-- The store's descending-date ordering is a permutation of the table. -/
theorem sortByDateDesc_perm (l : List BlogPost) : (sortByDateDesc l).Perm l :=
  List.perm_insertionSort dateGe l

/-- The store's descending-date ordering is sorted by `dateGe`. -/
theorem sortByDateDesc_sorted (l : List BlogPost) :
    List.Sorted dateGe (sortByDateDesc l) :=
  List.sorted_insertionSort dateGe l

/-- Entries of a rendered feed are sorted by publish date descending. -/
theorem atomFeedOf_entries_sorted (env : Env) (meta : BlogMetadata)
    (posts : List BlogPost) :
    List.Sorted entryGe (atomFeedOf env meta posts).entries := by
  have h₂ : List.Pairwise dateGe ((sortByDateDesc posts).filter (fun p => p.visible)) :=
    List.Pairwise.filter (fun p => p.visible) (sortByDateDesc_sorted posts)
  have h₃ : List.Pairwise
      (fun a b => entryGe (entryFrom env.md env.baseUrl a) (entryFrom env.md env.baseUrl b))
      ((sortByDateDesc posts).filter (fun p => p.visible)) := h₂
  exact List.pairwise_map.mpr h₃

/-- Entries of a rendered feed are, as a multiset, exactly the visible
posts mapped to entries. -/
theorem atomFeedOf_entries_perm (env : Env) (meta : BlogMetadata)
    (posts : List BlogPost) :
    (atomFeedOf env meta posts).entries.Perm
      ((posts.filter (fun p => p.visible)).map (entryFrom env.md env.baseUrl)) := by
  simp only [atomFeedOf]
  exact ((sortByDateDesc_perm posts).filter (fun p => p.visible)).map
    (entryFrom env.md env.baseUrl)

/-- A slug lookup that succeeds returns a member of the table. -/
theorem findPost_mem {db : Database} {slug : String} {p : BlogPost}
    (h : findPost db slug = some p) : p ∈ db.blog_posts :=
  List.mem_of_find?_eq_some h

/-- A slug lookup that succeeds returns a row with that slug. -/
theorem findPost_slug {db : Database} {slug : String} {p : BlogPost}
    (h : findPost db slug = some p) : p.slug = slug := by
  have := List.find?_some h
  simpa using this

/-- The row written by `updateRow` is in the updated table when the
original row was. -/
theorem updateRow_mem {l : List BlogPost} {p p' : BlogPost}
    (hmem : p ∈ l) (hpid : p'.id = p.id) : p' ∈ updateRow l p' := by
  have hmm := List.mem_map_of_mem (fun q => if q.id == p'.id then p' else q) hmem
  simpa [updateRow, hpid] using hmm

/-- Rows with a different id are untouched by `updateRow`. -/
theorem updateRow_mem_frame {l : List BlogPost} {p' q : BlogPost}
    (hq : q ∈ l) (h : q.id ≠ p'.id) : q ∈ updateRow l p' := by
  have hmm := List.mem_map_of_mem (fun x => if x.id == p'.id then p' else x) hq
  simpa [updateRow, h] using hmm

/-- A member of an updated table is the written row or an untouched row
of the original table with a different id. -/
theorem updateRow_mem_cases {l : List BlogPost} {p' q : BlogPost}
    (hq : q ∈ updateRow l p') : q = p' ∨ (q ∈ l ∧ q.id ≠ p'.id) := by
  obtain ⟨x, hx, hfx⟩ := List.mem_map.mp hq
  by_cases hxi : x.id = p'.id
  · left
    rw [← hfx]
    simp [hxi]
  · right
    have hqx : q = x := by rw [← hfx]; simp [hxi]
    rw [hqx]
    exact ⟨hx, hxi⟩

/-- Looking up the edited slug in the updated table finds the written row,
provided table ids are distinct. -/
theorem find?_updateRow {l : List BlogPost} {p p' : BlogPost} {slug : String}
    (h : l.find? (fun q => q.slug == slug) = some p)
    (hid : (l.map (fun q => q.id)).Nodup)
    (hpid : p'.id = p.id) (hps : p'.slug = slug) :
    (updateRow l p').find? (fun q => q.slug == slug) = some p' := by
  induction l with
  | nil => simp at h
  | cons a l ih =>
    rw [List.map_cons, List.nodup_cons] at hid
    cases ha : (a.slug == slug) with
    | true =>
      simp only [List.find?_cons, ha] at h
      have hap : a = p := by simpa using h
      have haid : (a.id == p'.id) = true := by
        rw [hpid, ← hap]
        exact beq_self_eq_true a.id
      have hup : updateRow (a :: l) p' = p' :: updateRow l p' := by
        simp only [updateRow, List.map_cons]
        rw [if_pos haid]
      rw [hup]
      simp only [List.find?_cons, show (p'.slug == slug) = true by simp [hps]]
    | false =>
      simp only [List.find?_cons, ha] at h
      have hpl : p ∈ l := List.mem_of_find?_eq_some h
      have haid : a.id ≠ p.id := by
        intro hcontra
        exact hid.1 (hcontra ▸ List.mem_map_of_mem (fun q => q.id) hpl)
      have haid' : (a.id == p'.id) = false := by
        rw [hpid]
        exact beq_eq_false_iff_ne.mpr haid
      have hnot : ¬ ((a.id == p'.id) = true) := by
        rw [haid']
        exact Bool.false_ne_true
      have hup : updateRow (a :: l) p' = a :: updateRow l p' := by
        simp only [updateRow, List.map_cons]
        rw [if_neg hnot]
      rw [hup]
      simp only [List.find?_cons, ha]
      exact ih h hid.2


/-- A committed mutation whose database holds a single metadata row (whose
title matches the returned row's blog title) and a single Blog feed row
runs the whole pipeline to success under failure-free stores: the feed
row is rewritten with the newly rendered document, the metadata stamp is
refreshed, the cache is swapped, and the handler reports success. -/
theorem runMutation_success (env : Env) (m : Mutation) (db : Database) (cache : Feed)
    {db₁ : Database} {row : BlogPost} {meta : BlogMetadata} {rrow : RssFeedRecord}
    (hm : applyMutationOnly env m db = some (db₁, row))
    (hmeta : db₁.blog_metadata = [meta]) (htitle : meta.title = row.blog_title)
    (hrss : db₁.rss_feeds = [rrow]) (hct : rrow.content_type = ContentType.Blog) :
    runMutation env noFailures true m db cache =
      ⟨successRespFor env m row,
       { db₁ with
          rss_feeds := [{ rrow with last_updated := env.now, rss_xml_string := env.feedStr (atomFeedOf env meta db₁.blog_posts) }],
          blog_metadata := [{ meta with last_updated := env.now }] },
       atomFeedOf env meta db₁.blog_posts,
       [Event.postMutated, Event.feedRendered, Event.rssPersisted,
        Event.cacheSwapped, Event.metaStamped],
       some row⟩ := by
  rw [runMutation_commit env noFailures m db cache (by cases m <;> rfl) hm]
  have hg : generate_atom_feed env noFailures db₁ =
      Except.ok (atomFeedOf env meta db₁.blog_posts) := by
    simp [generate_atom_feed, noFailures, hmeta]
  have hbeq : (rrow.content_type == ContentType.Blog) = true := by
    rw [hct]
    decide
  have hfind : db₁.rss_feeds.find? (fun x => x.content_type == ContentType.Blog) =
      some rrow := by
    rw [hrss]
    simp only [List.find?_cons, hbeq]
  have hu : update_blog_rss env noFailures db₁ cache =
      ⟨none,
       { db₁ with rss_feeds := [{ rrow with last_updated := env.now, rss_xml_string := env.feedStr (atomFeedOf env meta db₁.blog_posts) }] },
       atomFeedOf env meta db₁.blog_posts,
       [Event.feedRendered, Event.rssPersisted, Event.cacheSwapped]⟩ := by
    simp [update_blog_rss, hg, hfind, hbeq, hrss,
      show noFailures.rssSelect = false from rfl,
      show noFailures.rssUpdate = false from rfl]
  have hsm : set_blog_updated env noFailures
      { db₁ with rss_feeds := [{ rrow with last_updated := env.now, rss_xml_string := env.feedStr (atomFeedOf env meta db₁.blog_posts) }] }
      row.blog_title =
      ⟨none,
       { db₁ with rss_feeds := [{ rrow with last_updated := env.now, rss_xml_string := env.feedStr (atomFeedOf env meta db₁.blog_posts) }], blog_metadata := [{ meta with last_updated := env.now }] },
       [Event.metaStamped]⟩ := by
    simp [set_blog_updated, hmeta, htitle,
      show noFailures.metaSelect = false from rfl,
      show noFailures.metaUpdate = false from rfl]
  simp only [mutationTail, hu, hsm, List.cons_append, List.nil_append]


/-- Concrete fixture: a visible post. -/
def postA : BlogPost :=
  { id := 1, title := "Hello", slug := "hello-world", blog_title := "Blog",
    author := "A", text := "# Hi", description := "d", image := none, tags := none,
    next := none, previous := none, date := 10, last_updated := 10,
    visible := true, edited := false }

/-- Concrete fixture: a hidden post with the same slug as `postA`. -/
def postHidden : BlogPost :=
  { postA with id := 2, visible := false }

/-- Concrete fixture: a second post with a fresh slug. -/
def postB : BlogPost :=
  { postA with
      id := 7
      title := "Second"
      slug := "second-post"
      date := 20
      edited := true
      last_updated := 99 }

/-- Concrete fixture: the single metadata row. -/
def metaA : BlogMetadata :=
  { id := 1, title := "Blog", blog_url := "https://example.com/",
    syndication_url := "https://example.com/atom", last_updated := 0,
    author := "A", author_email := none, author_url := none }

/-- Concrete fixture: the persisted Blog feed row. -/
def rssA : RssFeedRecord :=
  { id := 1, content_type := ContentType.Blog, rss_xml_string := "", last_updated := 0 }

/-- Concrete fixture: a database with one visible post, one metadata row
and the Blog feed row. -/
def dbA : Database :=
  { blog_posts := [postA], blog_metadata := [metaA], rss_feeds := [rssA] }

/-- Concrete fixture: a database whose only post is hidden. -/
def dbHidden : Database :=
  { blog_posts := [postHidden], blog_metadata := [metaA], rss_feeds := [rssA] }

/-- Concrete fixture: outside collaborators for witnesses. -/
def envA : Env :=
  { md := fun s => "<p>" ++ s ++ "</p>", feedStr := fun f => toString f.updated,
    baseUrl := "https://example.com/", storeDefault := 0, now := 42 }

/-- Claim C5: a create whose slug equals the slug of any existing post,
visible or hidden, fails with 409 and changes nothing: the duplicate
check runs against the full post table, not only visible rows. -/
theorem duplicate_slug_conflict (env : Env) (fs : FailureSpec) (c p₀ : BlogPost)
    (db : Database) (cache : Feed)
    (hmem : p₀ ∈ db.blog_posts) (hslug : p₀.slug = c.slug)
    (hq : fs.dupQuery = false) :
    (runMutation env fs true (Mutation.create c) db cache).response.status = 409 ∧
    (runMutation env fs true (Mutation.create c) db cache).db = db ∧
    (runMutation env fs true (Mutation.create c) db cache).cache = cache := by
  have hsome : (db.blog_posts.find? (fun p => p.slug == c.slug)).isSome :=
    List.find?_isSome.mpr ⟨p₀, hmem, by simp [hslug]⟩
  obtain ⟨p, hp⟩ := Option.isSome_iff_exists.mp hsome
  have hp' : findPost db c.slug = some p := hp
  simp [runMutation, write_blog_post, hq, hp']

/-- Claim C5 witness: a hidden row with the same slug triggers the 409 and
the store keeps its single row. -/
theorem duplicate_slug_conflict_witness :
    postHidden.visible = false ∧ postHidden ∈ dbHidden.blog_posts ∧
    (runMutation envA noFailures true (Mutation.create postA) dbHidden emptyFeed).response.status = 409 ∧
    (runMutation envA noFailures true (Mutation.create postA) dbHidden emptyFeed).db = dbHidden :=
  ⟨rfl, by decide,
   (duplicate_slug_conflict envA noFailures postA postHidden dbHidden emptyFeed
     (by decide) (by decide) rfl).1,
   (duplicate_slug_conflict envA noFailures postA postHidden dbHidden emptyFeed
     (by decide) (by decide) rfl).2.1⟩

/-- Claim C7: a successful create stores a row whose identifier is
assigned by the store, whose edited flag is false and whose last-modified
stamp is the store default, regardless of the id, edited and last-updated
values supplied in the request body (the handler result is literally
unchanged when those are varied). The insert itself is modelled from the
spec, the generated entity module not being among the sources. -/
theorem create_assigns_store_fields (env : Env) (fs : FailureSpec) (c : BlogPost)
    (db : Database) (cache : Feed)
    (hnodup : findPost db c.slug = none)
    (hq : fs.dupQuery = false) (hi : fs.insert = false) :
    (runMutation env fs true (Mutation.create c) db cache).returnedPost =
      some (insertPost env.storeDefault db.blog_posts c) ∧
    (runMutation env fs true (Mutation.create c) db cache).db.blog_posts =
      db.blog_posts ++ [insertPost env.storeDefault db.blog_posts c] ∧
    (insertPost env.storeDefault db.blog_posts c).edited = false ∧
    (insertPost env.storeDefault db.blog_posts c).id = freshId db.blog_posts ∧
    (insertPost env.storeDefault db.blog_posts c).last_updated = env.storeDefault ∧
    (∀ i b t, runMutation env fs true
        (Mutation.create { c with id := i, edited := b, last_updated := t }) db cache =
      runMutation env fs true (Mutation.create c) db cache) := by
  have hcommit : runMutation env fs true (Mutation.create c) db cache =
      mutationTail env fs
        { db with blog_posts := db.blog_posts ++ [insertPost env.storeDefault db.blog_posts c] }
        cache (insertPost env.storeDefault db.blog_posts c)
        (successRespFor env (Mutation.create c) (insertPost env.storeDefault db.blog_posts c)) := by
    apply runMutation_commit
    · simp [preFlagsOk, hq, hi]
    · simp [applyMutationOnly, hnodup]
  refine ⟨?_, ?_, rfl, rfl, rfl, fun i b t => rfl⟩
  · rw [hcommit]
    rcases mutationTail_cases env fs
      { db with blog_posts := db.blog_posts ++ [insertPost env.storeDefault db.blog_posts c] }
      cache (insertPost env.storeDefault db.blog_posts c)
      (successRespFor env (Mutation.create c) (insertPost env.storeDefault db.blog_posts c)) with
      ⟨r, tr, ht, _, _⟩ | ⟨r, feed, db₂, _, _, ht, _, _, _⟩ | ⟨feed, db₃, _, _, ht, _⟩ <;>
      rw [ht]
  · rw [hcommit]
    rcases mutationTail_cases env fs
      { db with blog_posts := db.blog_posts ++ [insertPost env.storeDefault db.blog_posts c] }
      cache (insertPost env.storeDefault db.blog_posts c)
      (successRespFor env (Mutation.create c) (insertPost env.storeDefault db.blog_posts c)) with
      ⟨r, tr, ht, _, _⟩ | ⟨r, feed, db₂, _, _, ht, _, hposts, _⟩ | ⟨feed, db₃, _, _, ht, hposts⟩
    · rw [ht]
    · rw [ht]; exact hposts
    · rw [ht]; exact hposts

/-- Claim C7 witness: creating a post whose body claims id 7, edited true
and last-updated 99 stores it with the fresh id, edited false and the
store default stamp. -/
theorem create_assigns_store_fields_witness :
    (runMutation envA noFailures true (Mutation.create postB) dbA emptyFeed).returnedPost =
      some (insertPost envA.storeDefault dbA.blog_posts postB) ∧
    (insertPost envA.storeDefault dbA.blog_posts postB).edited = false ∧
    (insertPost envA.storeDefault dbA.blog_posts postB).id = 2 ∧
    (insertPost envA.storeDefault dbA.blog_posts postB).last_updated = 0 :=
  ⟨(create_assigns_store_fields envA noFailures postB dbA emptyFeed
      (by decide) rfl rfl).1,
   (create_assigns_store_fields envA noFailures postB dbA emptyFeed
      (by decide) rfl rfl).2.2.1,
   by decide, by decide⟩


/-- The pipeline tail always reports the row the mutation returned. -/
theorem mutationTail_returnedPost (env : Env) (fs : FailureSpec) (db₁ : Database)
    (cache : Feed) (row : BlogPost) (resp : HttpResponse) :
    (mutationTail env fs db₁ cache row resp).returnedPost = some row := by
  rcases mutationTail_cases env fs db₁ cache row resp with
    ⟨r, tr, ht, _, _⟩ | ⟨r, feed, db₂, _, _, ht, _, _, _⟩ | ⟨feed, db₃, _, _, ht, _⟩ <;>
    rw [ht]

/-- The pipeline tail never touches the post table. -/
theorem mutationTail_blog_posts (env : Env) (fs : FailureSpec) (db₁ : Database)
    (cache : Feed) (row : BlogPost) (resp : HttpResponse) :
    (mutationTail env fs db₁ cache row resp).db.blog_posts = db₁.blog_posts := by
  rcases mutationTail_cases env fs db₁ cache row resp with
    ⟨r, tr, ht, _, _⟩ | ⟨r, feed, db₂, _, _, ht, _, hposts, _⟩ | ⟨feed, db₃, _, _, ht, hposts⟩
  · rw [ht]
  · rw [ht]; exact hposts
  · rw [ht]; exact hposts

/-- Claim C6: a successful edit writes exactly the supplied fields; absent
fields keep their pre-edit values, the edited flag is set, and the
last-modified stamp is refreshed to the wall clock — with no requirement
that supplied values differ from the stored ones. -/
theorem edit_preserves_absent_fields (env : Env) (fs : FailureSpec) (slug : String)
    (e : EditRequest) (p : BlogPost) (db : Database) (cache : Feed)
    (hfind : findPost db slug = some p)
    (hf1 : fs.editFind = false) (hf2 : fs.editUpdate = false) :
    (runMutation env fs true (Mutation.edit slug e) db cache).returnedPost =
      some (applyEdits env e p) ∧
    applyEdits env e p ∈
      (runMutation env fs true (Mutation.edit slug e) db cache).db.blog_posts ∧
    (applyEdits env e p).edited = true ∧
    (applyEdits env e p).last_updated = env.now ∧
    (applyEdits env e p).id = p.id ∧
    (applyEdits env e p).slug = p.slug ∧
    (applyEdits env e p).blog_title = p.blog_title ∧
    (applyEdits env e p).author = p.author ∧
    (applyEdits env e p).description = p.description ∧
    (applyEdits env e p).image = p.image ∧
    (applyEdits env e p).next = p.next ∧
    (applyEdits env e p).previous = p.previous ∧
    (applyEdits env e p).date = p.date ∧
    (e.title = none → (applyEdits env e p).title = p.title) ∧
    (e.text = none → (applyEdits env e p).text = p.text) ∧
    (e.tags = none → (applyEdits env e p).tags = p.tags) ∧
    (e.visible = none → (applyEdits env e p).visible = p.visible) := by
  have hcommit : runMutation env fs true (Mutation.edit slug e) db cache =
      mutationTail env fs
        { db with blog_posts := updateRow db.blog_posts (applyEdits env e p) }
        cache (applyEdits env e p)
        (successRespFor env (Mutation.edit slug e) (applyEdits env e p)) := by
    apply runMutation_commit
    · simp [preFlagsOk, hf1, hf2]
    · simp [applyMutationOnly, hfind]
  refine ⟨?_, ?_, rfl, rfl, rfl, rfl, rfl, rfl, rfl, rfl, rfl, rfl, rfl,
    ?_, ?_, ?_, ?_⟩
  · rw [hcommit]
    exact mutationTail_returnedPost env fs _ cache _ _
  · rw [hcommit, mutationTail_blog_posts env fs _ cache _ _]
    exact updateRow_mem (findPost_mem hfind) rfl
  · intro h; simp [applyEdits, h]
  · intro h; simp [applyEdits, h]
  · intro h; simp [applyEdits, h]
  · intro h; simp [applyEdits, h]

/-- Concrete fixture: an edit request resupplying the identical title. -/
def editIdent : EditRequest :=
  { title := some "Hello", text := none, tags := none, visible := none }

/-- Claim C6 witness: an edit resupplying the identical title still sets
the edited flag and refreshes the last-modified stamp, and every absent
field is untouched. -/
theorem edit_preserves_absent_fields_witness :
    (runMutation envA noFailures true (Mutation.edit "hello-world" editIdent) dbA emptyFeed).returnedPost =
      some (applyEdits envA editIdent postA) ∧
    (applyEdits envA editIdent postA).edited = true ∧
    (applyEdits envA editIdent postA).last_updated = 42 ∧
    (applyEdits envA editIdent postA).title = postA.title ∧
    (applyEdits envA editIdent postA).text = postA.text :=
  ⟨(edit_preserves_absent_fields envA noFailures "hello-world" editIdent postA dbA
      emptyFeed (by decide) rfl rfl).1,
   (edit_preserves_absent_fields envA noFailures "hello-world" editIdent postA dbA
      emptyFeed (by decide) rfl rfl).2.2.1,
   by decide,
   by decide,
   (edit_preserves_absent_fields envA noFailures "hello-world" editIdent postA dbA
      emptyFeed (by decide) rfl rfl).2.2.2.2.2.2.2.2.2.2.2.2.2.2.1 rfl⟩


/-- Claim C8: soft delete clears the visibility flag and leaves every
other field (edited flag and last-modified stamp included) untouched; a
second soft delete of the already-hidden post still succeeds with 200,
still returns the post, and visibility stays false. Stated over a store
with distinct row ids, a single metadata row matching the post's blog
title and the single Blog feed row, so both runs complete their
pipelines. -/
theorem soft_delete_idempotent_in_effect (env : Env) (slug : String) (p : BlogPost)
    (db : Database) (cache : Feed) {meta : BlogMetadata} {rrow : RssFeedRecord}
    (hfind : findPost db slug = some p)
    (hids : (db.blog_posts.map (fun q => q.id)).Nodup)
    (hmeta : db.blog_metadata = [meta]) (htitle : meta.title = p.blog_title)
    (hrss : db.rss_feeds = [rrow]) (hct : rrow.content_type = ContentType.Blog) :
    (runMutation env noFailures true (Mutation.softDelete slug) db cache).response.status = 200 ∧
    (runMutation env noFailures true (Mutation.softDelete slug) db cache).returnedPost =
      some { p with visible := false } ∧
    { p with visible := false } ∈
      (runMutation env noFailures true (Mutation.softDelete slug) db cache).db.blog_posts ∧
    ({ p with visible := false } : BlogPost).title = p.title ∧
    ({ p with visible := false } : BlogPost).slug = p.slug ∧
    ({ p with visible := false } : BlogPost).edited = p.edited ∧
    ({ p with visible := false } : BlogPost).last_updated = p.last_updated ∧
    ({ p with visible := false } : BlogPost).text = p.text ∧
    ({ p with visible := false } : BlogPost).tags = p.tags ∧
    ({ p with visible := false } : BlogPost).date = p.date ∧
    ({ p with visible := false } : BlogPost).visible = false ∧
    (runMutation env noFailures true (Mutation.softDelete slug)
      (runMutation env noFailures true (Mutation.softDelete slug) db cache).db
      (runMutation env noFailures true (Mutation.softDelete slug) db cache).cache).response.status = 200 ∧
    (runMutation env noFailures true (Mutation.softDelete slug)
      (runMutation env noFailures true (Mutation.softDelete slug) db cache).db
      (runMutation env noFailures true (Mutation.softDelete slug) db cache).cache).returnedPost =
      some { p with visible := false } ∧
    (∀ q ∈ (runMutation env noFailures true (Mutation.softDelete slug)
        (runMutation env noFailures true (Mutation.softDelete slug) db cache).db
        (runMutation env noFailures true (Mutation.softDelete slug) db cache).cache).db.blog_posts,
      q.id = p.id → q.visible = false) := by
  have hm₁ : applyMutationOnly env (Mutation.softDelete slug) db =
      some ({ db with blog_posts := updateRow db.blog_posts { p with visible := false } },
        { p with visible := false }) := by
    simp [applyMutationOnly, hfind]
  have h₁ := runMutation_success env (Mutation.softDelete slug) db cache hm₁ hmeta htitle hrss hct
  have hslugp : p.slug = slug := findPost_slug hfind
  have hslug : ({ p with visible := false } : BlogPost).slug = slug := hslugp
  have hfind₂ : (updateRow db.blog_posts { p with visible := false }).find?
      (fun q => q.slug == slug) = some { p with visible := false } :=
    find?_updateRow hfind hids rfl hslug
  have hm₂ : applyMutationOnly env (Mutation.softDelete slug)
      { blog_posts := updateRow db.blog_posts { p with visible := false },
        blog_metadata := [{ meta with last_updated := env.now }],
        rss_feeds := [{ rrow with last_updated := env.now, rss_xml_string := env.feedStr (atomFeedOf env meta (updateRow db.blog_posts { p with visible := false })) }] } =
      some ({ blog_posts := updateRow (updateRow db.blog_posts { p with visible := false }) { p with visible := false },
              blog_metadata := [{ meta with last_updated := env.now }],
              rss_feeds := [{ rrow with last_updated := env.now, rss_xml_string := env.feedStr (atomFeedOf env meta (updateRow db.blog_posts { p with visible := false })) }] },
            { p with visible := false }) := by
    simp [applyMutationOnly, findPost, hfind₂]
  have htitle₂ : ({ meta with last_updated := env.now } : BlogMetadata).title =
      ({ p with visible := false } : BlogPost).blog_title := htitle
  have hct₂ : ({ rrow with last_updated := env.now, rss_xml_string := env.feedStr (atomFeedOf env meta (updateRow db.blog_posts { p with visible := false })) } : RssFeedRecord).content_type = ContentType.Blog := hct
  have h₂ := runMutation_success env (Mutation.softDelete slug)
    { blog_posts := updateRow db.blog_posts { p with visible := false },
      blog_metadata := [{ meta with last_updated := env.now }],
      rss_feeds := [{ rrow with last_updated := env.now, rss_xml_string := env.feedStr (atomFeedOf env meta (updateRow db.blog_posts { p with visible := false })) }] }
    (atomFeedOf env meta (updateRow db.blog_posts { p with visible := false }))
    hm₂ rfl htitle₂ rfl hct₂
  refine ⟨?_, ?_, ?_, rfl, rfl, rfl, rfl, rfl, rfl, rfl, rfl, ?_, ?_, ?_⟩
  · rw [h₁]
    rfl
  · rw [h₁]
  · rw [h₁]
    exact updateRow_mem (findPost_mem hfind) rfl
  · simp only [h₁]
    rw [h₂]
    rfl
  · simp only [h₁]
    rw [h₂]
  · simp only [h₁]
    rw [h₂]
    intro q hq hqid
    rcases updateRow_mem_cases hq with hqp | ⟨hql, hqne⟩
    · rw [hqp]
    · exact absurd hqid hqne


/-- Claim C8 witness: soft deleting the only post twice succeeds both
times, both runs return the post, and visibility is false. -/
theorem soft_delete_idempotent_in_effect_witness :
    (runMutation envA noFailures true (Mutation.softDelete "hello-world") dbA emptyFeed).response.status = 200 ∧
    (runMutation envA noFailures true (Mutation.softDelete "hello-world")
      (runMutation envA noFailures true (Mutation.softDelete "hello-world") dbA emptyFeed).db
      (runMutation envA noFailures true (Mutation.softDelete "hello-world") dbA emptyFeed).cache).response.status = 200 ∧
    (runMutation envA noFailures true (Mutation.softDelete "hello-world")
      (runMutation envA noFailures true (Mutation.softDelete "hello-world") dbA emptyFeed).db
      (runMutation envA noFailures true (Mutation.softDelete "hello-world") dbA emptyFeed).cache).returnedPost =
      some { postA with visible := false } :=
  ⟨(soft_delete_idempotent_in_effect envA "hello-world" postA dbA emptyFeed
      (by decide) (by decide) rfl rfl rfl rfl).1,
   (soft_delete_idempotent_in_effect envA "hello-world" postA dbA emptyFeed
      (by decide) (by decide) rfl rfl rfl rfl).2.2.2.2.2.2.2.2.2.2.2.1,
   (soft_delete_idempotent_in_effect envA "hello-world" postA dbA emptyFeed
      (by decide) (by decide) rfl rfl rfl rfl).2.2.2.2.2.2.2.2.2.2.2.2.1⟩

/-- Claim C9: after a soft delete the public single-post read of that slug
is 404 even though the row still exists, the list endpoint still reports
the row with visible false, and in general the single-post read returns a
post only when the slug lookup finds a row whose visibility flag is true. -/
theorem hidden_post_read_visibility (env : Env) (fs : FailureSpec) (slug : String)
    (p : BlogPost) (db : Database) (cache : Feed)
    (hfind : findPost db slug = some p)
    (hids : (db.blog_posts.map (fun q => q.id)).Nodup)
    (hf1 : fs.delFind = false) (hf2 : fs.delUpdate = false) :
    get_blog_post env.md (runMutation env fs true (Mutation.softDelete slug) db cache).db slug
      = ⟨404, none⟩ ∧
    (⟨p.title, p.slug, p.date, false⟩ : BlogPostInfo) ∈
      get_blog_posts (runMutation env fs true (Mutation.softDelete slug) db cache).db ∧
    (∀ db' s q, (get_blog_post env.md db' s).post = some q →
       ∃ p₀, findPost db' s = some p₀ ∧ p₀.visible = true ∧
         q = { p₀ with text := env.md p₀.text } ∧
         (get_blog_post env.md db' s).status = 200) := by
  have hcommit : runMutation env fs true (Mutation.softDelete slug) db cache =
      mutationTail env fs
        { db with blog_posts := updateRow db.blog_posts { p with visible := false } }
        cache { p with visible := false }
        (successRespFor env (Mutation.softDelete slug) { p with visible := false }) := by
    apply runMutation_commit
    · simp [preFlagsOk, hf1, hf2]
    · simp [applyMutationOnly, hfind]
  have hslugp : p.slug = slug := findPost_slug hfind
  have hslug : ({ p with visible := false } : BlogPost).slug = slug := hslugp
  have hfind₂ : (updateRow db.blog_posts { p with visible := false }).find?
      (fun q => q.slug == slug) = some { p with visible := false } :=
    find?_updateRow hfind hids rfl hslug
  have hposts : (runMutation env fs true (Mutation.softDelete slug) db cache).db.blog_posts =
      updateRow db.blog_posts { p with visible := false } := by
    rw [hcommit, mutationTail_blog_posts]
  refine ⟨?_, ?_, ?_⟩
  · simp [get_blog_post, findPost, hposts, hfind₂]
  · have hmem : ({ p with visible := false } : BlogPost) ∈
        (runMutation env fs true (Mutation.softDelete slug) db cache).db.blog_posts := by
      rw [hposts]
      exact updateRow_mem (findPost_mem hfind) rfl
    have hmem₂ : ({ p with visible := false } : BlogPost) ∈
        sortByDateDesc ((runMutation env fs true (Mutation.softDelete slug) db cache).db.blog_posts) :=
      ((sortByDateDesc_perm _).mem_iff).mpr hmem
    have hmap := List.mem_map_of_mem
      (fun q => (⟨q.title, q.slug, q.date, q.visible⟩ : BlogPostInfo)) hmem₂
    simpa [get_blog_posts] using hmap
  · intro db' s q hq
    unfold get_blog_post at hq
    cases hf : findPost db' s with
    | none =>
      simp only [hf] at hq
      simp at hq
    | some p₀ =>
      simp only [hf] at hq
      by_cases hv : p₀.visible = true
      · rw [if_pos hv] at hq
        refine ⟨p₀, rfl, hv, ?_, ?_⟩
        · simpa using hq.symm
        · simp [get_blog_post, hf, hv]
      · rw [if_neg hv] at hq
        simp at hq

/-- Claim C9 witness: after hiding the only post, the single-post read is
404 while the list still carries the row with visible false. -/
theorem hidden_post_read_visibility_witness :
    get_blog_post envA.md
      (runMutation envA noFailures true (Mutation.softDelete "hello-world") dbA emptyFeed).db
      "hello-world" = ⟨404, none⟩ ∧
    (⟨"Hello", "hello-world", 10, false⟩ : BlogPostInfo) ∈
      get_blog_posts (runMutation envA noFailures true (Mutation.softDelete "hello-world") dbA emptyFeed).db :=
  ⟨(hidden_post_read_visibility envA noFailures "hello-world" postA dbA emptyFeed
      (by decide) (by decide) rfl rfl).1,
   (hidden_post_read_visibility envA noFailures "hello-world" postA dbA emptyFeed
      (by decide) (by decide) rfl rfl).2.1⟩


/-- A committed mutation touches only the post table: metadata and feed
rows are whatever they were. -/
theorem applyMutationOnly_frame (env : Env) (m : Mutation) (db : Database)
    {db₁ : Database} {row : BlogPost}
    (hm : applyMutationOnly env m db = some (db₁, row)) :
    db₁.blog_metadata = db.blog_metadata ∧ db₁.rss_feeds = db.rss_feeds := by
  cases m with
  | create c =>
    simp only [applyMutationOnly] at hm
    cases hf : findPost db c.slug with
    | some p => rw [hf] at hm; simp at hm
    | none =>
      rw [hf] at hm
      simp only [Option.some.injEq, Prod.mk.injEq] at hm
      rw [← hm.1]
      exact ⟨rfl, rfl⟩
  | edit slug e =>
    simp only [applyMutationOnly] at hm
    cases hf : findPost db slug with
    | none => rw [hf] at hm; simp at hm
    | some p =>
      rw [hf] at hm
      simp only [Option.map_some', Option.some.injEq, Prod.mk.injEq] at hm
      rw [← hm.1]
      exact ⟨rfl, rfl⟩
  | softDelete slug =>
    simp only [applyMutationOnly] at hm
    cases hf : findPost db slug with
    | none => rw [hf] at hm; simp at hm
    | some p =>
      rw [hf] at hm
      simp only [Option.map_some', Option.some.injEq, Prod.mk.injEq] at hm
      rw [← hm.1]
      exact ⟨rfl, rfl⟩

/-- Claim C10: when the store has no Blog feed row, a mutation that
commits (and whose feed render succeeds) fails the feed-persistence step
with 500 "Blog Atom XML not found"; the post mutation stays committed,
the cache is not swapped, and no feed row is inserted — the step only
ever updates an existing row. -/
theorem missing_feed_record_surfaces_500 (env : Env) (fs : FailureSpec) (m : Mutation)
    (db : Database) (cache : Feed) (db₁ : Database) (row : BlogPost)
    (hm : applyMutationOnly env m db = some (db₁, row))
    (hpre : preFlagsOk fs m = true)
    (hfm : fs.getFeedMeta = false) (hfp : fs.getFeedPosts = false)
    (hrs : fs.rssSelect = false)
    (hmeta : db₁.blog_metadata ≠ [])
    (hnorow : db₁.rss_feeds.find? (fun x => x.content_type == ContentType.Blog) = none) :
    (runMutation env fs true m db cache).response.status = 500 ∧
    (runMutation env fs true m db cache).response.body = "Blog Atom XML not found" ∧
    (runMutation env fs true m db cache).db.blog_posts = db₁.blog_posts ∧
    (runMutation env fs true m db cache).cache = cache ∧
    (runMutation env fs true m db cache).db.rss_feeds = db.rss_feeds := by
  rw [runMutation_commit env fs m db cache hpre hm]
  have hmetaSome : ∃ meta, db₁.blog_metadata.head? = some meta := by
    cases hh : db₁.blog_metadata with
    | nil => exact absurd hh hmeta
    | cons a l => exact ⟨a, rfl⟩
  obtain ⟨meta, hhead⟩ := hmetaSome
  have hg : generate_atom_feed env fs db₁ =
      Except.ok (atomFeedOf env meta db₁.blog_posts) := by
    simp [generate_atom_feed, hfm, hfp, hhead]
  have hu : update_blog_rss env fs db₁ cache =
      ⟨some ⟨500, "Blog Atom XML not found", none⟩, db₁, cache, [Event.feedRendered]⟩ := by
    simp [update_blog_rss, hg, hrs, hnorow]
  simp only [mutationTail, hu]
  simp [(applyMutationOnly_frame env m db hm).2]

/-- Concrete fixture: a database lacking the Blog feed row. -/
def dbNoRss : Database :=
  { blog_posts := [postA], blog_metadata := [metaA], rss_feeds := [] }

/-- Claim C10 witness: soft deleting over a store without the Blog feed
row commits the hide but answers 500 "Blog Atom XML not found" without
swapping the cache or inserting a feed row. -/
theorem missing_feed_record_surfaces_500_witness :
    (runMutation envA noFailures true (Mutation.softDelete "hello-world") dbNoRss emptyFeed).response.status = 500 ∧
    (runMutation envA noFailures true (Mutation.softDelete "hello-world") dbNoRss emptyFeed).response.body = "Blog Atom XML not found" ∧
    (runMutation envA noFailures true (Mutation.softDelete "hello-world") dbNoRss emptyFeed).cache = emptyFeed ∧
    (runMutation envA noFailures true (Mutation.softDelete "hello-world") dbNoRss emptyFeed).db.rss_feeds = dbNoRss.rss_feeds :=
  ⟨(missing_feed_record_surfaces_500 envA noFailures (Mutation.softDelete "hello-world")
      dbNoRss emptyFeed
      { dbNoRss with blog_posts := updateRow dbNoRss.blog_posts { postA with visible := false } }
      { postA with visible := false }
      (by decide) rfl rfl rfl rfl (by decide) rfl).1,
   (missing_feed_record_surfaces_500 envA noFailures (Mutation.softDelete "hello-world")
      dbNoRss emptyFeed
      { dbNoRss with blog_posts := updateRow dbNoRss.blog_posts { postA with visible := false } }
      { postA with visible := false }
      (by decide) rfl rfl rfl rfl (by decide) rfl).2.1,
   (missing_feed_record_surfaces_500 envA noFailures (Mutation.softDelete "hello-world")
      dbNoRss emptyFeed
      { dbNoRss with blog_posts := updateRow dbNoRss.blog_posts { postA with visible := false } }
      { postA with visible := false }
      (by decide) rfl rfl rfl rfl (by decide) rfl).2.2.2.1,
   (missing_feed_record_surfaces_500 envA noFailures (Mutation.softDelete "hello-world")
      dbNoRss emptyFeed
      { dbNoRss with blog_posts := updateRow dbNoRss.blog_posts { postA with visible := false } }
      { postA with visible := false }
      (by decide) rfl rfl rfl rfl (by decide) rfl).2.2.2.2⟩

/-- Claim C3: once a mutation's store write has committed, a sync
pipeline that does not run to completion (no metadata-stamp event in the
trace) leaves the handler answering 500 while the committed mutation
stays in the post table: no compensating rollback happens. -/
theorem no_rollback_on_sync_failure (env : Env) (fs : FailureSpec) (m : Mutation)
    (db : Database) (cache : Feed) (db₁ : Database) (row : BlogPost)
    (hm : applyMutationOnly env m db = some (db₁, row))
    (hpre : preFlagsOk fs m = true)
    (hfail : Event.metaStamped ∉ (runMutation env fs true m db cache).trace) :
    (runMutation env fs true m db cache).response.status = 500 ∧
    (runMutation env fs true m db cache).db.blog_posts = db₁.blog_posts := by
  rw [runMutation_commit env fs m db cache hpre hm] at hfail ⊢
  rcases mutationTail_cases env fs db₁ cache row (successRespFor env m row) with
    ⟨r, tr, ht, hs, htr | htr⟩ | ⟨r, feed, db₂, _, _, ht, hs, hposts, _⟩ |
    ⟨feed, db₃, _, _, ht, hposts⟩
  · rw [ht]
    exact ⟨hs, rfl⟩
  · rw [ht]
    exact ⟨hs, rfl⟩
  · rw [ht]
    exact ⟨hs, hposts⟩
  · rw [ht] at hfail
    simp at hfail

/-- Concrete fixture: the feed-row write fails. -/
def fsRssFail : FailureSpec := { noFailures with rssUpdate := true }

/-- Claim C3 witness: with the feed-row write failing, the soft delete
answers 500 yet the hidden row is committed. -/
theorem no_rollback_on_sync_failure_witness :
    (runMutation envA fsRssFail true (Mutation.softDelete "hello-world") dbA emptyFeed).response.status = 500 ∧
    (runMutation envA fsRssFail true (Mutation.softDelete "hello-world") dbA emptyFeed).db.blog_posts =
      ({ dbA with blog_posts := updateRow dbA.blog_posts { postA with visible := false } } : Database).blog_posts :=
  no_rollback_on_sync_failure envA fsRssFail (Mutation.softDelete "hello-world") dbA emptyFeed
    { dbA with blog_posts := updateRow dbA.blog_posts { postA with visible := false } }
    { postA with visible := false } (by decide) (by decide) (by decide)


/-- Claim C2: the cache snapshot is replaced only after both the post
mutation and the feed-row persistence succeeded — in every trace the swap
event is preceded by the mutation and persistence events — and when the
feed render or the feed-row write fails the cache is left unchanged, so
readers never observe a cache ahead of durable storage. -/
theorem cache_swap_after_persistence (env : Env) (fs : FailureSpec) (authOk : Bool)
    (m : Mutation) (db : Database) (cache : Feed) :
    (Event.cacheSwapped ∈ (runMutation env fs authOk m db cache).trace →
       Event.postMutated ∈ eventsBefore Event.cacheSwapped
         (runMutation env fs authOk m db cache).trace ∧
       Event.rssPersisted ∈ eventsBefore Event.cacheSwapped
         (runMutation env fs authOk m db cache).trace) ∧
    (Event.rssPersisted ∉ (runMutation env fs authOk m db cache).trace →
       (runMutation env fs authOk m db cache).cache = cache) ∧
    (fs.getFeedMeta = true → (runMutation env fs authOk m db cache).cache = cache) ∧
    (fs.rssUpdate = true → (runMutation env fs authOk m db cache).cache = cache) := by
  rcases runMutation_cases env fs authOk m db cache with ⟨resp, he, _⟩ | ⟨db₁, row, hm, he⟩
  · have htr : (runMutation env fs authOk m db cache).trace = [] := by rw [he]
    have hc : (runMutation env fs authOk m db cache).cache = cache := by rw [he]
    rw [htr, hc]
    exact ⟨fun h => absurd h (by decide), fun _ => rfl, fun _ => rfl, fun _ => rfl⟩
  · rcases mutationTail_cases env fs db₁ cache row (successRespFor env m row) with
      ⟨r, tr, ht, hs, htr0 | htr0⟩ | ⟨r, feed, db₂, hg, hru, ht, hs, hposts, hm2⟩ |
      ⟨feed, db₃, hg, hru, ht, hposts⟩
    · have htr : (runMutation env fs authOk m db cache).trace = [Event.postMutated] := by
        rw [he, ht, htr0]
      have hc : (runMutation env fs authOk m db cache).cache = cache := by rw [he, ht]
      rw [htr, hc]
      exact ⟨fun h => absurd h (by decide), fun _ => rfl, fun _ => rfl, fun _ => rfl⟩
    · have htr : (runMutation env fs authOk m db cache).trace =
          [Event.postMutated, Event.feedRendered] := by
        rw [he, ht, htr0]
      have hc : (runMutation env fs authOk m db cache).cache = cache := by rw [he, ht]
      rw [htr, hc]
      exact ⟨fun h => absurd h (by decide), fun _ => rfl, fun _ => rfl, fun _ => rfl⟩
    · have htr : (runMutation env fs authOk m db cache).trace =
          [Event.postMutated, Event.feedRendered, Event.rssPersisted, Event.cacheSwapped] := by
        rw [he, ht]
      rw [htr]
      refine ⟨fun _ => ⟨by decide, by decide⟩, fun hnot => absurd (by decide) hnot, ?_, ?_⟩
      · intro htrue
        rw [(generate_atom_feed_ok hg).1] at htrue
        exact absurd htrue Bool.false_ne_true
      · intro htrue
        rw [hru] at htrue
        exact absurd htrue Bool.false_ne_true
    · have htr : (runMutation env fs authOk m db cache).trace =
          [Event.postMutated, Event.feedRendered, Event.rssPersisted,
           Event.cacheSwapped, Event.metaStamped] := by
        rw [he, ht]
      rw [htr]
      refine ⟨fun _ => ⟨by decide, by decide⟩, fun hnot => absurd (by decide) hnot, ?_, ?_⟩
      · intro htrue
        rw [(generate_atom_feed_ok hg).1] at htrue
        exact absurd htrue Bool.false_ne_true
      · intro htrue
        rw [hru] at htrue
        exact absurd htrue Bool.false_ne_true

/-- Claim C2 witness: with the feed-row write failing, the cache is
untouched after a soft delete. -/
theorem cache_swap_after_persistence_witness :
    (runMutation envA fsRssFail true (Mutation.softDelete "hello-world") dbA emptyFeed).cache = emptyFeed :=
  (cache_swap_after_persistence envA fsRssFail true
    (Mutation.softDelete "hello-world") dbA emptyFeed).2.2.2 rfl

/-- Concrete fixture: the metadata-stamp write fails. -/
def fsMetaFail : FailureSpec := { noFailures with metaUpdate := true }

/-- Claim C4 counterexample: in a run whose metadata-stamp write fails,
the cache has already been swapped (the swap event is in the trace, the
cache holds the new feed, the handler answers 500) although the metadata
refresh never succeeded — refuting the claim that the cache swap happens
only after the metadata timestamp refresh has succeeded. -/
theorem cache_swap_precedes_meta_refresh_cex :
    Event.cacheSwapped ∈
      (runMutation envA fsMetaFail true (Mutation.softDelete "hello-world") dbA emptyFeed).trace ∧
    Event.metaStamped ∉
      (runMutation envA fsMetaFail true (Mutation.softDelete "hello-world") dbA emptyFeed).trace ∧
    (runMutation envA fsMetaFail true (Mutation.softDelete "hello-world") dbA emptyFeed).response.status = 500 ∧
    (runMutation envA fsMetaFail true (Mutation.softDelete "hello-world") dbA emptyFeed).cache ≠ emptyFeed := by
  decide

/-- Claim C4 as amended: within one mutation's pipeline the persisted
feed write, the cache swap and the metadata refresh are strictly ordered
— but with the swap before the metadata refresh, not after it: the swap
follows the feed-row persistence and always precedes the metadata stamp. -/
theorem pipeline_step_order_amended (env : Env) (fs : FailureSpec) (authOk : Bool)
    (m : Mutation) (db : Database) (cache : Feed) :
    (Event.cacheSwapped ∈ (runMutation env fs authOk m db cache).trace →
       Event.rssPersisted ∈ eventsBefore Event.cacheSwapped
         (runMutation env fs authOk m db cache).trace ∧
       Event.metaStamped ∉ eventsBefore Event.cacheSwapped
         (runMutation env fs authOk m db cache).trace) ∧
    (Event.metaStamped ∈ (runMutation env fs authOk m db cache).trace →
       Event.cacheSwapped ∈ eventsBefore Event.metaStamped
         (runMutation env fs authOk m db cache).trace) := by
  rcases runMutation_trace_shapes env fs authOk m db cache with h | h | h | h | h <;>
    rw [h] <;> decide

/-- Claim C4 amended witness: a fully successful run has the swap before
the metadata stamp. -/
theorem pipeline_step_order_amended_witness :
    Event.cacheSwapped ∈ eventsBefore Event.metaStamped
      (runMutation envA noFailures true (Mutation.softDelete "hello-world") dbA emptyFeed).trace :=
  (pipeline_step_order_amended envA noFailures true
    (Mutation.softDelete "hello-world") dbA emptyFeed).2 (by decide)


/-- Claim C1: after every mutation the handler reports successful, the
cached feed's entry list is exactly the visible posts of the resulting
store in descending publish-date order; each entry's body is the HTML
rendering of the post's markdown source and each entry's identifier and
link are the configured base URL concatenated with the post's slug; the
atom endpoint serves that cache. -/
theorem atom_feed_matches_visible_posts (env : Env) (fs : FailureSpec) (authOk : Bool)
    (m : Mutation) (db : Database) (cache : Feed)
    (hs : (runMutation env fs authOk m db cache).response.status = 200 ∨
          (runMutation env fs authOk m db cache).response.status = 201) :
    (runMutation env fs authOk m db cache).cache.entries =
      ((sortByDateDesc (runMutation env fs authOk m db cache).db.blog_posts).filter
        (fun p => p.visible)).map (entryFrom env.md env.baseUrl) ∧
    List.Sorted entryGe (runMutation env fs authOk m db cache).cache.entries ∧
    (runMutation env fs authOk m db cache).cache.entries.Perm
      (((runMutation env fs authOk m db cache).db.blog_posts.filter (fun p => p.visible)).map
        (entryFrom env.md env.baseUrl)) ∧
    (∀ e ∈ (runMutation env fs authOk m db cache).cache.entries,
       ∃ p, p ∈ (runMutation env fs authOk m db cache).db.blog_posts ∧ p.visible = true ∧
         e = entryFrom env.md env.baseUrl p ∧
         e.content = some ⟨some "text/html", some (env.md p.text)⟩ ∧
         e.id = env.baseUrl ++ p.slug ∧
         e.links.map (fun l => l.href) = [env.baseUrl ++ p.slug]) ∧
    (∀ p, p ∈ (runMutation env fs authOk m db cache).db.blog_posts → p.visible = true →
       entryFrom env.md env.baseUrl p ∈ (runMutation env fs authOk m db cache).cache.entries) ∧
    get_blog_rss env (runMutation env fs authOk m db cache).cache =
      ⟨200, env.feedStr (runMutation env fs authOk m db cache).cache, none⟩ := by
  rcases runMutation_cases env fs authOk m db cache with
    ⟨resp, he, hstat⟩ | ⟨db₁, row, hm, he⟩
  · exfalso
    rw [he] at hs
    simp only [] at hs
    rcases hstat with h | h | h | h <;> rw [h] at hs <;> simp at hs
  · rw [he] at hs ⊢
    rcases mutationTail_cases env fs db₁ cache row (successRespFor env m row) with
      ⟨r, tr, ht, h500, _⟩ | ⟨r, feed, db₂, hg, _, ht, h500, _, _⟩ |
      ⟨feed, db₃, hg, _, ht, hposts⟩
    · exfalso
      rw [ht] at hs
      simp only [] at hs
      rw [h500] at hs
      simp at hs
    · exfalso
      rw [ht] at hs
      simp only [] at hs
      rw [h500] at hs
      simp at hs
    · obtain ⟨hfm, hfp, meta, hhead, hfeed⟩ := generate_atom_feed_ok hg
      have hcacheM : (mutationTail env fs db₁ cache row (successRespFor env m row)).cache =
          atomFeedOf env meta db₁.blog_posts := by
        rw [ht]
        exact hfeed
      have hdbp : (mutationTail env fs db₁ cache row (successRespFor env m row)).db.blog_posts =
          db₁.blog_posts := by
        rw [ht]
        exact hposts
      rw [hcacheM, hdbp]
      refine ⟨rfl, atomFeedOf_entries_sorted env meta db₁.blog_posts,
        atomFeedOf_entries_perm env meta db₁.blog_posts, ?_, ?_, rfl⟩
      · intro e he'
        have he'' : e ∈ ((sortByDateDesc db₁.blog_posts).filter (fun p => p.visible)).map
            (entryFrom env.md env.baseUrl) := he'
        obtain ⟨p, hp, hfp'⟩ := List.mem_map.mp he''
        obtain ⟨hpsort, hpvis⟩ := List.mem_filter.mp hp
        refine ⟨p, (sortByDateDesc_perm db₁.blog_posts).mem_iff.mp hpsort, hpvis,
          hfp'.symm, ?_, ?_, ?_⟩
        · rw [← hfp']
          rfl
        · rw [← hfp']
          rfl
        · rw [← hfp']
          rfl
      · intro p hp hv
        exact (atomFeedOf_entries_perm env meta db₁.blog_posts).mem_iff.mpr
          (List.mem_map_of_mem (entryFrom env.md env.baseUrl)
            (List.mem_filter.mpr ⟨hp, hv⟩))

/-- Claim C1 witness: after creating a second post, the cached feed holds
exactly the two visible posts' entries, newest first. -/
theorem atom_feed_matches_visible_posts_witness :
    (runMutation envA noFailures true (Mutation.create postB) dbA emptyFeed).cache.entries =
      ((sortByDateDesc (runMutation envA noFailures true (Mutation.create postB) dbA emptyFeed).db.blog_posts).filter
        (fun p => p.visible)).map (entryFrom envA.md envA.baseUrl) :=
  (atom_feed_matches_visible_posts envA noFailures true (Mutation.create postB) dbA emptyFeed
    (Or.inr (by decide))).1

end LazySusan
